import Mathlib

/-!
Verification of the Focus-Flow task/timer state model.

Shallow embedding of the application logic in `src/hooks/useFirestore.ts`,
`src/components/tasks/TaskManager.tsx`, `src/components/pomodoro/PomodoroTimer.tsx`
and `src/components/progress/ProgressTracker.tsx`.

Conventions of the embedding:
- Firestore is modelled as an explicit `Store` value threaded through the
  operations; `updateDoc` on a missing document fails (the code's catch
  branches model that failure path), `addDoc` receives its auto-generated
  document id as an explicit parameter.
- The authenticated user is an `Option String` (`none` = signed out).
- React `useState` values are explicit arguments/results (the "local" state),
  distinct from the store, mirroring the optimistic-update pattern.
- Timestamps are integer milliseconds; calendar days are integers.
-/

namespace FocusFlow

/-- Task record, `interface Task` in `useFirestore.ts` (timestamps omitted:
no claim mentions `createdAt`/`updatedAt` values). -/
structure Task where
  id : String
  title : String
  description : String
  completed : Bool
  pomodorosCompleted : Nat
  userId : String
  order : Int
  deriving Repr, DecidableEq

/-- Session type, `'work' | 'break'`. -/
inductive SessionType where
  | work
  | rest
  deriving Repr, DecidableEq

/-- Pomodoro session record, `interface PomodoroSession`. Times in ms. -/
structure Session where
  id : String
  taskId : String
  startTime : Nat
  endTime : Nat
  duration : Nat
  type : SessionType
  userId : String
  deriving Repr, DecidableEq

/-- User settings record (durations in minutes). -/
structure Settings where
  workDuration : Nat
  shortBreakDuration : Nat
  longBreakDuration : Nat
  longBreakInterval : Nat
  deriving Repr, DecidableEq

/-- The defaults used to initialise the `useUserSettings` state. -/
def defaultSettings : Settings :=
  { workDuration := 25, shortBreakDuration := 5, longBreakDuration := 15,
    longBreakInterval := 4 }

/-- A document in the `userSettings` collection. `docId` is the Firestore
document key; `userId` is the field the `addDoc` fallback writes into the
document body. -/
structure SettingsDoc where
  docId : String
  data : Settings
  userId : Option String
  deriving Repr, DecidableEq

/-- The Firestore backend, restricted to the three collections the hooks
use. -/
structure Store where
  tasks : List Task
  sessions : List Session
  settingsDocs : List SettingsDoc
  deriving Repr, DecidableEq

/-- `getDoc` on the `tasks` collection. -/
def Store.getTask (st : Store) (id : String) : Option Task :=
  st.tasks.find? (fun t => t.id = id)

/-- `getDoc` on the `userSettings` collection. -/
def Store.getSettingsDoc (st : Store) (docId : String) : Option SettingsDoc :=
  st.settingsDocs.find? (fun d => d.docId = docId)

/-! ## Task list operations (`useTasks` in `useFirestore.ts`) -/

/-- `tasks.length > 0 ? Math.max(...tasks.map(task => task.order)) : -1`
(`addTask`, lines 83-85). -/
def highestOrder (tasks : List Task) : Int :=
  match tasks.map (fun t => t.order) with
  | [] => -1
  | o :: os => os.foldl max o

/-- `addTask` (lines 78-106): bail out with `null` when signed out, otherwise
append a task with `order = highestOrder + 1` to the store and to the local
optimistic list. `newId` is the id `addDoc` assigns. -/
def addTask (user : Option String) (store : Store) (localTasks : List Task)
    (newId title description : String) : Option Task × Store × List Task :=
  match user with
  | none => (none, store, localTasks)
  | some uid =>
    let newTask : Task :=
      { id := newId, title := title, description := description,
        completed := false, pomodorosCompleted := 0, userId := uid,
        order := highestOrder localTasks + 1 }
    (some newTask, { store with tasks := store.tasks ++ [newTask] },
      localTasks ++ [newTask])

/-- The partial fields `updateTask` may merge. -/
structure TaskPatch where
  title : Option String
  description : Option String
  completed : Option Bool
  deriving Repr, DecidableEq

/-- Merging a patch into a task (`{ ...task, ...updatedTask }`). -/
def TaskPatch.apply (p : TaskPatch) (t : Task) : Task :=
  { t with
    title := p.title.getD t.title,
    description := p.description.getD t.description,
    completed := p.completed.getD t.completed }

/-- `updateTask` (lines 108-128): `false` when signed out; otherwise
`updateDoc` (fails on a missing document, caught → `false`) and the
optimistic local map. -/
def updateTask (user : Option String) (store : Store) (localTasks : List Task)
    (id : String) (p : TaskPatch) : Bool × Store × List Task :=
  match user with
  | none => (false, store, localTasks)
  | some _ =>
    if (store.getTask id).isSome then
      (true,
        { store with tasks := store.tasks.map fun t =>
            if t.id = id then p.apply t else t },
        localTasks.map fun t => if t.id = id then p.apply t else t)
    else
      (false, store, localTasks)

/-- `deleteTask` (lines 130-142). -/
def deleteTask (user : Option String) (store : Store) (localTasks : List Task)
    (id : String) : Bool × Store × List Task :=
  match user with
  | none => (false, store, localTasks)
  | some _ =>
    (true, { store with tasks := store.tasks.filter fun t => ¬ t.id = id },
      localTasks.filter fun t => ¬ t.id = id)

/-- One `updateDoc(doc(db, tasks, task.id), { order: task.order, ... })` call
issued by `reorderTasks`. -/
def writeOrder (tasksCol : List Task) (u : Task) : List Task :=
  tasksCol.map fun t => if t.id = u.id then { t with order := u.order } else t

/-- `reorderTasks` (lines 144-167): reassign `order := index` over the given
listing, write each task's order to the store, replace the local list. -/
def reorderTasks (user : Option String) (store : Store)
    (localTasks reordered : List Task) : Bool × Store × List Task :=
  match user with
  | none => (false, store, localTasks)
  | some _ =>
    let updated := reordered.enum.map fun p => { p.2 with order := (p.1 : Int) }
    (true, { store with tasks := updated.foldl writeOrder store.tasks }, updated)

/-! ## Session recorder (`usePomodoroSessions.addSession`, lines 221-254) -/

/-- The payload `addSession` receives (`Omit<PomodoroSession, 'id'|'userId'>`). -/
structure SessionData where
  taskId : String
  startTime : Nat
  endTime : Nat
  duration : Nat
  type : SessionType
  deriving Repr, DecidableEq

/-- `addSession`: `null` when signed out; otherwise persist the session,
prepend it to the local list, and — for a `work` session — re-read the task
from the store (`getDoc`) and increment its `pomodorosCompleted` against that
stored value; a missing task silently skips the increment. `newId` is the id
`addDoc` assigns to the session document. -/
def addSession (user : Option String) (store : Store)
    (localSessions : List Session) (d : SessionData) (newId : String) :
    Option Session × Store × List Session :=
  match user with
  | none => (none, store, localSessions)
  | some uid =>
    let s : Session :=
      { id := newId, taskId := d.taskId, startTime := d.startTime,
        endTime := d.endTime, duration := d.duration, type := d.type,
        userId := uid }
    let store1 := { store with sessions := store.sessions ++ [s] }
    let store2 :=
      if d.type = SessionType.work then
        match store1.getTask d.taskId with
        | some t =>
          { store1 with tasks := store1.tasks.map fun x =>
              if x.id = d.taskId then
                { x with pomodorosCompleted := t.pomodorosCompleted + 1 }
              else x }
        | none => store1
      else store1
    (some s, store2, s :: localSessions)

/-! ## User settings (`useUserSettings`, lines 269-347) -/

/-- `updateSettings` (lines 311-335): `false` when signed out; otherwise
`updateDoc(doc('userSettings', uid), newSettings)` — which fails when no
document with key `uid` exists — and on that failure the fallback
`addDoc(collection('userSettings'), { ...newSettings, userId: uid })`, which
stores the record under the auto-generated id `autoId`, not under `uid`. -/
def updateSettings (user : Option String) (store : Store) (localSettings : Settings)
    (newSettings : Settings) (autoId : String) : Bool × Store × Settings :=
  match user with
  | none => (false, store, localSettings)
  | some uid =>
    if (store.getSettingsDoc uid).isSome then
      (true,
        { store with settingsDocs := store.settingsDocs.map fun d =>
            if d.docId = uid then { d with data := newSettings } else d },
        newSettings)
    else
      (true,
        { store with settingsDocs :=
            store.settingsDocs ++ [{ docId := autoId, data := newSettings, userId := some uid }] },
        newSettings)

/-- `fetchSettings` (lines 285-309): with a signed-in user, `getDoc` on the
document keyed by the uid; if it exists adopt its data, otherwise call
`updateSettings` with the current local settings (the defaults on first run)
to create the document. -/
def fetchSettings (user : Option String) (store : Store) (localSettings : Settings)
    (autoId : String) : Store × Settings :=
  match user with
  | none => (store, localSettings)
  | some uid =>
    match store.getSettingsDoc uid with
    | some d => (store, d.data)
    | none =>
      let r := updateSettings (some uid) store localSettings localSettings autoId
      (r.2.1, r.2.2)

/-! ## Progress aggregator (`ProgressTracker.tsx`, effect at lines 41-123)

Dates are modelled at day granularity: a session's `startDay` is the calendar
day of its `startTime`, `today` is the current day, and the date-keyed map is
an association list over day numbers kept in insertion order, as a JS `Map`
is. Only the chart-bucket part of the effect is embedded (the part the claims
mention). -/

/-- A work session reduced to the single field the chart uses. -/
structure DaySession where
  startDay : Int
  type : SessionType
  deriving Repr, DecidableEq

/-- `dateMap.set(dateKey, (dateMap.get(dateKey) || 0) + 1)`: bump the entry
for `day`, appending a new key when absent, as a JS `Map` does. -/
def bumpDay (m : List (Int × Nat)) (day : Int) : List (Int × Nat) :=
  if m.any (fun e => e.1 = day) then
    m.map fun e => if e.1 = day then (e.1, e.2 + 1) else e
  else
    m ++ [(day, 1)]

/-- The chart-data part of the `ProgressTracker` effect. Returns the previous
`chartData` untouched when the session list is empty (`if (loading ||
!sessions.length) return;`), otherwise builds one zero bucket per day from
`startDate = today - (len-1)` through `today` and bumps a bucket for each
in-range work session. `week = true` selects the 7-day window, else 30. -/
def progressChartData (sessions : List DaySession) (today : Int) (week : Bool)
    (prevChart : List (Int × Nat)) : List (Int × Nat) :=
  if sessions.isEmpty then prevChart
  else
    let len : Nat := if week then 7 else 30
    let startDate : Int := today - (len - 1 : Nat)
    let filtered := sessions.filter fun s =>
      startDate ≤ s.startDay ∧ s.type = SessionType.work
    let base := (List.range len).map fun (i : Nat) => (startDate + (i : Int), 0)
    filtered.foldl (fun m s => bumpDay m s.startDay) base

/-! ## Timer state machine (`PomodoroTimer.tsx`)

The React state of `PomodoroTimer` is gathered in one record; the `useEffect`
on `mode` (lines 27-43), which runs exactly when `mode` changed and re-bases
`timeLeft`, is applied synchronously after each `setMode`, and the
`useEffect` on `isActive` (lines 46-72), which records the session start
marker when a countdown starts with no marker set, is applied synchronously
after each `setIsActive`. -/

inductive TimerMode where
  | work
  | shortBreak
  | longBreak
  deriving Repr, DecidableEq

/-- The `switch (mode)` duration tables (lines 27-43, 135-146), in seconds. -/
def modeDuration (cfg : Settings) : TimerMode → Nat
  | TimerMode.work => cfg.workDuration * 60
  | TimerMode.shortBreak => cfg.shortBreakDuration * 60
  | TimerMode.longBreak => cfg.longBreakDuration * 60

structure TimerState where
  timeLeft : Nat
  isActive : Bool
  mode : TimerMode
  selectedTaskId : Option String
  completedPomodoros : Nat
  startTimeRef : Option Nat
  deriving Repr, DecidableEq

/-- Initial component state: `work`, paused, countdown `workDuration*60`. -/
def initialTimer (cfg : Settings) : TimerState :=
  { timeLeft := cfg.workDuration * 60, isActive := false, mode := TimerMode.work,
    selectedTaskId := none, completedPomodoros := 0, startTimeRef := none }

/-- `setMode m` followed by the mode effect: the effect re-runs (and re-bases
`timeLeft` to the new mode's duration) exactly when the mode value changed. -/
def setModeAndEffect (cfg : Settings) (st : TimerState) (m : TimerMode) : TimerState :=
  if m = st.mode then { st with mode := m }
  else { st with mode := m, timeLeft := modeDuration cfg m }

/-- `toggleTimer` (lines 119-127) together with the `isActive` effect. The
first component is `true` when the blocking `alert(...)` fired. `now` is the
wall-clock time recorded as the session start when a countdown begins. -/
def toggleTimer (st : TimerState) (now : Nat) : Bool × TimerState :=
  if ¬ st.isActive ∧ st.mode = TimerMode.work ∧ st.selectedTaskId = none then
    (true, st)
  else
    let st1 := { st with isActive := ¬ st.isActive }
    if st1.isActive ∧ st1.startTimeRef = none then
      (false, { st1 with startTimeRef := some now })
    else
      (false, st1)

/-- `handleTimerComplete` (lines 74-117), at wall-clock time `now` (ms): stop
running; if the mode was `work` with a task selected and a start marker set,
emit a session covering the elapsed interval (duration
`Math.floor((end-start)/1000)`) and increment `completedPomodoros`; clear the
marker; then advance the mode — the long-break test reads the
`completedPomodoros` value captured before the increment. Returns the new
state and the emitted session payload, if any. -/
def handleTimerComplete (cfg : Settings) (st : TimerState) (now : Nat) :
    TimerState × Option SessionData :=
  let oldCount := st.completedPomodoros
  let st0 := { st with isActive := false }
  let recorded : TimerState × Option SessionData :=
    match st0.mode, st0.selectedTaskId, st0.startTimeRef with
    | TimerMode.work, some tid, some t0 =>
      ({ st0 with completedPomodoros := st0.completedPomodoros + 1 },
        some { taskId := tid, startTime := t0, endTime := now,
               duration := (now - t0) / 1000, type := SessionType.work })
    | _, _, _ => (st0, none)
  let st1 := { recorded.1 with startTimeRef := none }
  let nextMode :=
    match st1.mode with
    | TimerMode.work =>
      if oldCount % cfg.longBreakInterval = cfg.longBreakInterval - 1 then
        TimerMode.longBreak
      else TimerMode.shortBreak
    | _ => TimerMode.work
  (setModeAndEffect cfg st1 nextMode, recorded.2)

/-- `switchMode` (lines 199-212): while running it asks for confirmation and,
if confirmed (`confirmOk`), stops the timer, switches the mode and clears the
start marker; while paused it only switches the mode. The mode effect then
re-bases the countdown. -/
def switchMode (cfg : Settings) (st : TimerState) (newMode : TimerMode)
    (confirmOk : Bool) : TimerState :=
  if st.isActive then
    if confirmOk then
      setModeAndEffect cfg { st with isActive := false, startTimeRef := none } newMode
    else st
  else
    setModeAndEffect cfg st newMode

/-- `resetTimer` (lines 129-150). -/
def resetTimer (cfg : Settings) (st : TimerState) : TimerState :=
  { st with
    isActive := false,
    timeLeft := modeDuration cfg st.mode,
    startTimeRef := none }

/-! ## Filtered drag-and-drop reorder (`TaskManager.tsx`) -/

inductive TaskFilter where
  | all
  | active
  | completedOnly
  deriving Repr, DecidableEq

/-- `getFilteredTasks` (lines 49-58). -/
def getFilteredTasks (f : TaskFilter) (tasks : List Task) : List Task :=
  match f with
  | TaskFilter.all => tasks
  | TaskFilter.active => tasks.filter fun t => ¬ t.completed
  | TaskFilter.completedOnly => tasks.filter fun t => t.completed

/-- Stable insertion of a task into a list sorted ascending by `order`:
the inserted task goes after every element whose `order` does not exceed
its own, as JS's stable `Array.prototype.sort` arranges equal keys. -/
def insertByOrder (t : Task) : List Task → List Task
  | [] => [t]
  | u :: us => if t.order < u.order then t :: u :: us else u :: insertByOrder t us

/-- Stable sort by the numeric comparator `(a, b) => a.order - b.order`. -/
def sortByOrder (l : List Task) : List Task :=
  l.foldr insertByOrder []

/-- `handleDragEnd` (lines 15-47) on a drop from `startIndex` to `endIndex`
within the filtered view: move the dragged task inside the filtered listing,
merge with the tasks outside the filter, sort the merged list by the tasks'
existing `order` fields, and reassign `order := index`. Returns `none` on the
early exits (no movement / out-of-range source index, which the drag-and-drop
library never produces), otherwise the listing handed to `reorderTasks`. -/
def handleDragEnd (f : TaskFilter) (tasks : List Task) (startIndex endIndex : Nat) :
    Option (List Task) :=
  if startIndex = endIndex then none
  else
    let filteredTasks := getFilteredTasks f tasks
    match filteredTasks.get? startIndex with
    | none => none
    | some removed =>
      let reordered := (filteredTasks.eraseIdx startIndex).insertIdx endIndex removed
      let nonFilteredTasks := tasks.filter fun t =>
        ¬ filteredTasks.any fun ft => ft.id = t.id
      let allTasks := sortByOrder (reordered ++ nonFilteredTasks)
      some (allTasks.enum.map fun p => { p.2 with order := (p.1 : Int) })

/-- Walk the full task list; each slot whose task satisfies `inFilter` is
replaced in-place by the next task of the replacement arrangement `repl`,
slots outside the filter keep their task. -/
def spliceMerge (inFilter : Task → Bool) : List Task → List Task → List Task
  | [], _ => []
  | t :: ts, repl =>
    if inFilter t then
      match repl with
      | [] => t :: spliceMerge inFilter ts []
      | r :: rs => r :: spliceMerge inFilter ts rs
    else
      t :: spliceMerge inFilter ts repl

/-- The reorder semantics the specification describes: the filtered subset's
old slots in the full list are replaced in-place by the subset's new
arrangement, tasks outside the filter keep their slots, and every task's
`order` is then reassigned to its positional index. Stated from the spec's
words, for comparison with `handleDragEnd`. -/
def spliceReorderSpec (f : TaskFilter) (tasks : List Task)
    (startIndex endIndex : Nat) : Option (List Task) :=
  if startIndex = endIndex then none
  else
    let filteredTasks := getFilteredTasks f tasks
    match filteredTasks.get? startIndex with
    | none => none
    | some removed =>
      let reordered := (filteredTasks.eraseIdx startIndex).insertIdx endIndex removed
      let spliced := spliceMerge (fun t => filteredTasks.any fun ft => ft.id = t.id)
        tasks reordered
      some (spliced.enum.map fun p => { p.2 with order := (p.1 : Int) })

/-! ## Concrete instances used by counterexamples and witnesses -/

def emptyStore : Store := { tasks := [], sessions := [], settingsDocs := [] }

/-- An uncompleted task in slot 0. -/
def tA : Task :=
  { id := "t1", title := "A", description := "", completed := false,
    pomodorosCompleted := 0, userId := "u", order := 0 }

/-- A completed task in slot 1 (outside the `active` filter). -/
def tB : Task :=
  { id := "t2", title := "B", description := "", completed := true,
    pomodorosCompleted := 0, userId := "u", order := 1 }

/-- An uncompleted task in slot 2. -/
def tC : Task :=
  { id := "t3", title := "C", description := "", completed := false,
    pomodorosCompleted := 0, userId := "u", order := 2 }

/-- A store holding the single task `tA`. -/
def storeWithTA : Store := { tasks := [tA], sessions := [], settingsDocs := [] }

/-- A work-session payload referencing `tA`. -/
def sdWork : SessionData :=
  { taskId := "t1", startTime := 1000, endTime := 2000, duration := 1,
    type := SessionType.work }

/-- A timer mid-work-countdown: task selected, start marker at 1000 ms. -/
def timerMidWork : TimerState :=
  { timeLeft := 42, isActive := true, mode := TimerMode.work,
    selectedTaskId := some "t1", completedPomodoros := 0,
    startTimeRef := some 1000 }

/-- A paused timer in `work` mode holding a session-start marker, as after
start followed by pause. -/
def pausedWithMarker : TimerState :=
  { timeLeft := 37, isActive := false, mode := TimerMode.work,
    selectedTaskId := some "t1", completedPomodoros := 0,
    startTimeRef := some 5 }

/-- A running timer in `work` mode with a marker, two pomodoros done. -/
def runningWithMarker : TimerState :=
  { timeLeft := 42, isActive := true, mode := TimerMode.work,
    selectedTaskId := some "t1", completedPomodoros := 2,
    startTimeRef := some 7 }

/-! ## Iterated pomodoro cycles (for the long-break cadence) -/

/-- One full work countdown: the user selects task `tid`, starts the timer
(recording the start marker), and the countdown runs to zero, firing
`handleTimerComplete`. -/
def workCycle (cfg : Settings) (tid : String) (st : TimerState) : TimerState :=
  (handleTimerComplete cfg (toggleTimer { st with selectedTaskId := some tid } 0).2 0).1

/-- One full break countdown: start the timer and let it run to zero. -/
def breakCycle (cfg : Settings) (st : TimerState) : TimerState :=
  (handleTimerComplete cfg (toggleTimer st 0).2 0).1

/-- The timer state immediately after the n-th consecutive full `work`
countdown completion (each intervening break also runs to completion). -/
def afterNthWork (cfg : Settings) (tid : String) : Nat → TimerState
  | 0 => initialTimer cfg
  | 1 => workCycle cfg tid (initialTimer cfg)
  | Nat.succ (Nat.succ n) =>
    workCycle cfg tid (breakCycle cfg (afterNthWork cfg tid (Nat.succ n)))

/-! # Theorems -/

/-! ## Helper lemmas -/

lemma le_foldl_max (l : List Int) (a : Int) : a ≤ l.foldl max a := by
  induction l generalizing a with
  | nil => exact le_refl a
  | cons b bs ih => exact le_trans (le_max_left a b) (ih (max a b))

lemma mem_le_foldl_max (l : List Int) (a x : Int) (hx : x ∈ l) :
    x ≤ l.foldl max a := by
  induction l generalizing a with
  | nil => cases hx
  | cons b bs ih =>
    rcases List.mem_cons.mp hx with h | h
    · subst h
      exact le_trans (le_max_right a x) (le_foldl_max bs (max a x))
    · exact ih (max a b) h

lemma foldl_max_mem (l : List Int) (a : Int) :
    l.foldl max a = a ∨ l.foldl max a ∈ l := by
  induction l generalizing a with
  | nil => exact Or.inl rfl
  | cons b bs ih =>
    rcases ih (max a b) with h | h
    · rcases max_choice a b with hab | hab
      · exact Or.inl (h.trans hab)
      · exact Or.inr (List.mem_cons.mpr (Or.inl (h.trans hab)))
    · exact Or.inr (List.mem_cons.mpr (Or.inr h))

lemma highestOrder_mem (tasks : List Task) (hne : tasks ≠ []) :
    highestOrder tasks ∈ tasks.map (fun t => t.order) := by
  cases tasks with
  | nil => exact absurd rfl hne
  | cons u us =>
    show (us.map fun t => t.order).foldl max u.order ∈
      u.order :: (us.map fun t => t.order)
    rcases foldl_max_mem (us.map fun t => t.order) u.order with h | h
    · exact List.mem_cons.mpr (Or.inl h)
    · exact List.mem_cons.mpr (Or.inr h)

lemma order_le_highestOrder (tasks : List Task) (t : Task) (ht : t ∈ tasks) :
    t.order ≤ highestOrder tasks := by
  cases tasks with
  | nil => cases ht
  | cons u us =>
    rcases List.mem_cons.mp ht with h | h
    · subst h
      exact le_foldl_max (us.map fun x => x.order) t.order
    · exact mem_le_foldl_max (us.map fun x => x.order) u.order t.order
        (List.mem_map.mpr ⟨t, h, rfl⟩)

/-! ## C10: signed-out mutations are inert -/

/-- C10: with no authenticated user, every mutating hook operation —
`addTask`, `updateTask`, `deleteTask`, `reorderTasks`, `addSession`,
`updateSettings` — returns its `null`/`false` sentinel, performs no store
write, and leaves the local task, session and settings state unchanged. -/
theorem signedOut_mutations_inert (store : Store) (localTasks : List Task)
    (localSessions : List Session) (localSettings : Settings)
    (newId title description id : String) (p : TaskPatch)
    (reordered : List Task) (d : SessionData) (newS : Settings)
    (autoId : String) :
    addTask none store localTasks newId title description = (none, store, localTasks) ∧
    updateTask none store localTasks id p = (false, store, localTasks) ∧
    deleteTask none store localTasks id = (false, store, localTasks) ∧
    reorderTasks none store localTasks reordered = (false, store, localTasks) ∧
    addSession none store localSessions d newId = (none, store, localSessions) ∧
    updateSettings none store localSettings newS autoId = (false, store, localSettings) :=
  ⟨rfl, rfl, rfl, rfl, rfl, rfl⟩

/-! ## C6: starting a work countdown requires a selected task -/

/-- C6: in `work` mode with no task selected and the timer not running,
`toggleTimer` surfaces the blocking validation failure (the `alert`, first
component `true`) and leaves the state — `isActive`, the countdown, the
session-start marker — entirely unchanged. -/
theorem workStart_requires_task (st : TimerState) (now : Nat)
    (hM : st.mode = TimerMode.work) (hS : st.selectedTaskId = none)
    (hA : st.isActive = false) :
    toggleTimer st now = (true, st) := by
  unfold toggleTimer
  simp [hM, hS, hA]

/-- Witness for C6 at the initial component state. -/
theorem workStart_requires_task_witness :
    toggleTimer (initialTimer defaultSettings) 3 = (true, initialTimer defaultSettings) :=
  workStart_requires_task (initialTimer defaultSettings) 3 rfl rfl rfl

/-! ## C9: `addTask` assigns a strictly larger order -/

/-- C9: with a signed-in user, `addTask` returns a task whose `order` is
`0` on an empty list and, on a non-empty list, exactly (maximum existing
order) + 1 — where the maximum is characterised as an existing task's order
that bounds every existing task's order; hence the new order is strictly
greater than every pre-existing task's `order`. -/
theorem addTask_fresh_order (uid : String) (store : Store)
    (localTasks : List Task) (newId title description : String) :
    ∃ t : Task,
      (addTask (some uid) store localTasks newId title description).1 = some t ∧
      (localTasks = [] → t.order = 0) ∧
      (localTasks ≠ [] → ∃ m : Int,
        m ∈ localTasks.map (fun t0 => t0.order) ∧
        (∀ t0 ∈ localTasks, t0.order ≤ m) ∧
        t.order = m + 1) ∧
      ∀ t0 ∈ localTasks, t0.order < t.order := by
  refine ⟨_, rfl, ?_, ?_, ?_⟩
  · intro h
    subst h
    rfl
  · intro hne
    exact ⟨highestOrder localTasks, highestOrder_mem localTasks hne,
      fun t0 ht0 => order_le_highestOrder localTasks t0 ht0, rfl⟩
  · intro t0 ht0
    have h := order_le_highestOrder localTasks t0 ht0
    show t0.order < highestOrder localTasks + 1
    omega

/-- Witness for C9 on the one-task list `[tA]`. -/
theorem addTask_fresh_order_witness :
    ∃ t : Task,
      (addTask (some "u") emptyStore [tA] "t9" "New" "").1 = some t ∧
      ([tA] = ([] : List Task) → t.order = 0) ∧
      ([tA] ≠ ([] : List Task) → ∃ m : Int,
        m ∈ [tA].map (fun t0 => t0.order) ∧
        (∀ t0 ∈ [tA], t0.order ≤ m) ∧
        t.order = m + 1) ∧
      ∀ t0 ∈ [tA], t0.order < t.order :=
  addTask_fresh_order "u" emptyStore [tA] "t9" "New" ""

/-! ## C7: recorded duration is the floor of the elapsed interval -/

/-- C7: when a work countdown completes with a task selected and a start
marker `t0 ≤ now`, the emitted session payload covers `[t0, now]` with
`duration = ⌊(now − t0) / 1000⌋` seconds, and `addSession` persists any
payload's time fields and duration verbatim. -/
theorem session_duration_floor (cfg : Settings) (st : TimerState) (now : Nat)
    (tid : String) (t0 : Nat) (hM : st.mode = TimerMode.work)
    (hS : st.selectedTaskId = some tid) (hR : st.startTimeRef = some t0)
    (_hle : t0 ≤ now) :
    (∃ d : SessionData,
      (handleTimerComplete cfg st now).2 = some d ∧
      d.startTime = t0 ∧ d.endTime = now ∧ d.duration = (now - t0) / 1000) ∧
    ∀ (uid : String) (store : Store) (loc : List Session) (d : SessionData)
      (newId : String),
      ∃ s : Session,
        (addSession (some uid) store loc d newId).1 = some s ∧
        s.duration = d.duration ∧ s.startTime = d.startTime ∧
        s.endTime = d.endTime := by
  constructor
  · unfold handleTimerComplete
    simp [hM, hS, hR]
  · intro uid store loc d newId
    exact ⟨_, rfl, rfl, rfl, rfl⟩

/-- Witness for C7: start at 1000 ms, end 90.7 s later → duration 90. -/
theorem session_duration_floor_witness :
    ((handleTimerComplete defaultSettings timerMidWork 91700).2.map
      SessionData.duration) = some 90 := by
  obtain ⟨⟨d, hd, _, _, hdur⟩, -⟩ :=
    session_duration_floor defaultSettings timerMidWork 91700 "t1" 1000
      rfl rfl rfl (by omega)
  rw [hd]
  simp [hdur]

/-! ## C8: only work sessions bump the task counter -/

/-- C8: with a signed-in user, `addSession` always persists the session
(appending it to the store and prepending it locally); for a `work` session
whose task is found in the store, that task's `pomodorosCompleted` is
incremented by one against the stored value; a missing task leaves the
tasks collection untouched (the session is still recorded); a break session
never changes any task. -/
theorem addSession_counter (uid : String) (store : Store)
    (localSessions : List Session) (d : SessionData) (newId : String) :
    (∃ s : Session,
      (addSession (some uid) store localSessions d newId).1 = some s ∧
      (addSession (some uid) store localSessions d newId).2.1.sessions =
        store.sessions ++ [s] ∧
      (addSession (some uid) store localSessions d newId).2.2 = s :: localSessions) ∧
    (∀ t : Task, d.type = SessionType.work → store.getTask d.taskId = some t →
      (addSession (some uid) store localSessions d newId).2.1.tasks =
        store.tasks.map fun x =>
          if x.id = d.taskId then
            { x with pomodorosCompleted := t.pomodorosCompleted + 1 }
          else x) ∧
    (d.type = SessionType.work → store.getTask d.taskId = none →
      (addSession (some uid) store localSessions d newId).2.1.tasks = store.tasks) ∧
    (d.type = SessionType.rest →
      (addSession (some uid) store localSessions d newId).2.1.tasks = store.tasks) := by
  refine ⟨⟨_, rfl, ?_, rfl⟩, ?_, ?_, ?_⟩
  · unfold addSession Store.getTask
    cases h : d.type <;>
      cases hf : List.find? (fun t => decide (t.id = d.taskId)) store.tasks <;>
      simp [h, hf]
  · intro t hw hf
    unfold addSession
    simp only [hw]
    unfold Store.getTask at hf
    simp [Store.getTask, hf]
  · intro hw hf
    unfold addSession
    simp only [hw]
    unfold Store.getTask at hf
    simp [Store.getTask, hf]
  · intro hb
    unfold addSession
    simp [hb]

/-- Witness for C8: a work session against `storeWithTA` bumps `tA`'s
counter from 0 to 1. -/
theorem addSession_counter_witness :
    (addSession (some "u") storeWithTA [] sdWork "s1").2.1.tasks =
      [{ tA with pomodorosCompleted := 1 }] := by
  have h := (addSession_counter "u" storeWithTA [] sdWork "s1").2.1 tA rfl rfl
  rw [h]
  rfl

/-! ## C2: progress buckets over an empty window -/

/-- C2 counterexample: with no sessions at all (hence zero work sessions in
the 7-day window), the aggregation effect returns early and the chart stays
empty — not a list of 7 zero buckets. -/
theorem progress_empty_sessions_empty_chart :
    progressChartData [] 0 true [] = [] := rfl

/-- C2 amended: when the session list is non-empty but no work session
falls on or after the window start, the chart is exactly one zero bucket
per calendar day of the window — length 7 (week) or 30 (month); with an
entirely empty session list the effect is skipped and the previous chart is
kept (see the counterexample). -/
theorem progress_zero_buckets (sessions : List DaySession) (today : Int)
    (week : Bool) (prev : List (Int × Nat)) (hne : sessions ≠ [])
    (hno : ∀ s ∈ sessions, s.type = SessionType.work →
      s.startDay < today - (((if week then 7 else 30) : Nat) - 1 : Nat)) :
    progressChartData sessions today week prev =
      (List.range (if week then 7 else 30)).map
        (fun (i : Nat) => (today - (((if week then 7 else 30) : Nat) - 1 : Nat) + (i : Int), 0)) ∧
    (progressChartData sessions today week prev).length =
      (if week then 7 else 30) ∧
    ∀ e ∈ progressChartData sessions today week prev, e.2 = 0 := by
  have hne' : sessions.isEmpty = false := by
    cases sessions with
    | nil => exact absurd rfl hne
    | cons s ss => rfl
  have hfilter : sessions.filter (fun s =>
      decide (today - (((if week then 7 else 30) : Nat) - 1 : Nat) ≤ s.startDay ∧
        s.type = SessionType.work)) = [] := by
    refine List.filter_eq_nil_iff.mpr ?_
    intro s hs
    simp only [decide_eq_true_eq, not_and]
    intro hle hty
    exact absurd hle (not_le.mpr (hno s hs hty))
  have hmain : progressChartData sessions today week prev =
      (List.range (if week then 7 else 30)).map
        (fun (i : Nat) => (today - (((if week then 7 else 30) : Nat) - 1 : Nat) + (i : Int), 0)) := by
    unfold progressChartData
    rw [hne']
    simp only [Bool.false_eq_true, if_false]
    rw [hfilter]
    rfl
  refine ⟨hmain, ?_, ?_⟩
  · rw [hmain]
    simp
  · intro e he
    rw [hmain] at he
    obtain ⟨i, _, hi⟩ := List.mem_map.mp he
    rw [← hi]

/-- Witness for C2 (amended) on a week window with one out-of-window work
session. -/
theorem progress_zero_buckets_witness :
    progressChartData [{ startDay := 0, type := SessionType.work }] 100 true [] =
      (List.range 7).map (fun (i : Nat) => ((94 : Int) + (i : Int), 0)) ∧
    (progressChartData [{ startDay := 0, type := SessionType.work }] 100 true []).length = 7 ∧
    ∀ e ∈ progressChartData [{ startDay := 0, type := SessionType.work }] 100 true [],
      e.2 = 0 := by
  have h := progress_zero_buckets [{ startDay := 0, type := SessionType.work }]
    100 true [] (by simp) (by intro s hs hty; simp at hs; rw [hs]; decide)
  refine ⟨?_, h.2.1, h.2.2⟩
  rw [h.1]
  decide

/-! ## C4: what a mode switch resets -/

/-- C4 counterexample: an explicit mode switch while the timer is paused
(here from a paused `work` countdown holding the start marker `some 5`)
re-bases the countdown but does not clear the session-start marker. -/
theorem switchMode_paused_keeps_marker :
    (switchMode defaultSettings pausedWithMarker TimerMode.shortBreak true).mode =
      TimerMode.shortBreak ∧
    (switchMode defaultSettings pausedWithMarker TimerMode.shortBreak true).startTimeRef =
      some 5 :=
  ⟨rfl, rfl⟩

/-- C4 amended: a mode switch to a different mode always re-bases the
countdown to the target mode's configured duration; the session-start
marker is cleared on a confirmed switch while running and on the automatic
advance after a completion, but an explicit switch while paused leaves the
marker as it was. -/
theorem modeSwitch_resets (cfg : Settings) (st : TimerState) (m : TimerMode)
    (now : Nat) :
    (m ≠ st.mode → st.isActive = true →
      (switchMode cfg st m true).timeLeft = modeDuration cfg m ∧
      (switchMode cfg st m true).startTimeRef = none ∧
      (switchMode cfg st m true).mode = m) ∧
    (m ≠ st.mode → st.isActive = false →
      (switchMode cfg st m true).timeLeft = modeDuration cfg m ∧
      (switchMode cfg st m true).startTimeRef = st.startTimeRef ∧
      (switchMode cfg st m true).mode = m) ∧
    ((handleTimerComplete cfg st now).1.timeLeft =
      modeDuration cfg (handleTimerComplete cfg st now).1.mode ∧
    (handleTimerComplete cfg st now).1.startTimeRef = none) := by
  refine ⟨?_, ?_, ?_⟩
  · intro hm hA
    unfold switchMode setModeAndEffect
    simp [hA, hm]
  · intro hm hA
    unfold switchMode setModeAndEffect
    simp [hA, hm]
  · unfold handleTimerComplete setModeAndEffect
    cases hmode : st.mode <;>
      cases hsel : st.selectedTaskId <;>
      cases href : st.startTimeRef <;>
      by_cases hc : st.completedPomodoros % cfg.longBreakInterval =
        cfg.longBreakInterval - 1 <;>
      simp [hmode, hsel, href, hc]

/-- Witness for C4 (amended): a confirmed switch from a running work
countdown to the short break re-bases to 5 minutes and clears the marker. -/
theorem modeSwitch_resets_witness :
    (switchMode defaultSettings runningWithMarker TimerMode.shortBreak true).timeLeft = 300 ∧
    (switchMode defaultSettings runningWithMarker TimerMode.shortBreak true).startTimeRef =
      none := by
  have h := (modeSwitch_resets defaultSettings runningWithMarker
    TimerMode.shortBreak 0).1 (by decide) rfl
  exact ⟨h.1, h.2.1⟩

/-! ## C5: long-break cadence -/

lemma mod_pred_iff_dvd_succ (K n : Nat) (hK : 1 ≤ K) :
    n % K = K - 1 ↔ K ∣ (n + 1) := by
  rw [Nat.dvd_iff_mod_eq_zero]
  rcases eq_or_lt_of_le hK with h1 | h2
  · rw [← h1]
    simp [Nat.mod_one]
  · have h1K : 1 % K = 1 := Nat.mod_eq_of_lt h2
    have hm : (n + 1) % K = (n % K + 1) % K := by
      rw [Nat.add_mod, h1K]
    have hlt : n % K < K := Nat.mod_lt _ (by omega)
    constructor
    · intro h
      rw [hm, h]
      have hKK : K - 1 + 1 = K := by omega
      rw [hKK, Nat.mod_self]
    · intro h
      rw [hm] at h
      by_cases hc : n % K + 1 < K
      · rw [Nat.mod_eq_of_lt hc] at h
        omega
      · omega

lemma workCycle_spec (cfg : Settings) (tid : String) (st : TimerState)
    (hA : st.isActive = false) (hM : st.mode = TimerMode.work)
    (hR : st.startTimeRef = none) :
    (workCycle cfg tid st).completedPomodoros = st.completedPomodoros + 1 ∧
    (workCycle cfg tid st).isActive = false ∧
    (workCycle cfg tid st).startTimeRef = none ∧
    (workCycle cfg tid st).selectedTaskId = some tid ∧
    (workCycle cfg tid st).mode =
      (if st.completedPomodoros % cfg.longBreakInterval =
          cfg.longBreakInterval - 1
       then TimerMode.longBreak else TimerMode.shortBreak) := by
  unfold workCycle toggleTimer handleTimerComplete setModeAndEffect
  by_cases hc : st.completedPomodoros % cfg.longBreakInterval =
      cfg.longBreakInterval - 1 <;>
    simp [hA, hM, hR, hc]

lemma breakCycle_spec (cfg : Settings) (st : TimerState)
    (hA : st.isActive = false) (hM : ¬ st.mode = TimerMode.work)
    (hR : st.startTimeRef = none) :
    (breakCycle cfg st).completedPomodoros = st.completedPomodoros ∧
    (breakCycle cfg st).isActive = false ∧
    (breakCycle cfg st).startTimeRef = none ∧
    (breakCycle cfg st).selectedTaskId = st.selectedTaskId ∧
    (breakCycle cfg st).mode = TimerMode.work := by
  unfold breakCycle toggleTimer handleTimerComplete setModeAndEffect
  cases hmode : st.mode with
  | work => exact absurd hmode hM
  | shortBreak => simp [hA, hmode, hR]
  | longBreak => simp [hA, hmode, hR]

lemma afterNthWork_spec (cfg : Settings) (tid : String) (n : Nat) :
    (afterNthWork cfg tid (n + 1)).completedPomodoros = n + 1 ∧
    (afterNthWork cfg tid (n + 1)).isActive = false ∧
    (afterNthWork cfg tid (n + 1)).startTimeRef = none ∧
    (afterNthWork cfg tid (n + 1)).selectedTaskId = some tid ∧
    (afterNthWork cfg tid (n + 1)).mode =
      (if n % cfg.longBreakInterval = cfg.longBreakInterval - 1
       then TimerMode.longBreak else TimerMode.shortBreak) := by
  induction n with
  | zero =>
    have h := workCycle_spec cfg tid (initialTimer cfg) rfl rfl rfl
    simpa [afterNthWork, initialTimer] using h
  | succ k ih =>
    obtain ⟨ih1, ih2, ih3, ih4, ih5⟩ := ih
    have hmne : ¬ (afterNthWork cfg tid (k + 1)).mode = TimerMode.work := by
      rw [ih5]
      split <;> simp
    obtain ⟨hb1, hb2, hb3, hb4, hb5⟩ :=
      breakCycle_spec cfg (afterNthWork cfg tid (k + 1)) ih2 hmne ih3
    obtain ⟨hw1, hw2, hw3, hw4, hw5⟩ :=
      workCycle_spec cfg tid (breakCycle cfg (afterNthWork cfg tid (k + 1)))
        hb2 hb5 hb3
    have heq : afterNthWork cfg tid (k + 1 + 1) =
        workCycle cfg tid (breakCycle cfg (afterNthWork cfg tid (k + 1))) := rfl
    rw [heq]
    refine ⟨?_, hw2, hw3, hw4, ?_⟩
    · rw [hw1, hb1, ih1]
    · rw [hw5, hb1, ih1]

lemma complete_break_to_work (cfg : Settings) (st : TimerState) (now : Nat)
    (hm : ¬ st.mode = TimerMode.work) :
    ((handleTimerComplete cfg st now).1).mode = TimerMode.work := by
  unfold handleTimerComplete setModeAndEffect
  cases hmode : st.mode with
  | work => exact absurd hmode hm
  | shortBreak => simp [hmode]
  | longBreak => simp [hmode]

/-- C5: after N ≥ 1 consecutive full work-countdown completions with a task
selected (intervening breaks completing normally) and
`longBreakInterval = K ≥ 1`, the mode entered after the N-th work completion
is `longBreak` exactly when K divides N (the pre-increment completed-work
count ≡ K − 1 (mod K) at the transition) and `shortBreak` otherwise; after
any break completion the mode entered is `work`. -/
theorem longBreak_cadence (cfg : Settings) (tid : String) (N : Nat)
    (hN : 1 ≤ N) (hK : 1 ≤ cfg.longBreakInterval) :
    ((afterNthWork cfg tid N).mode = TimerMode.longBreak ↔
      cfg.longBreakInterval ∣ N) ∧
    ((afterNthWork cfg tid N).mode = TimerMode.shortBreak ↔
      ¬ cfg.longBreakInterval ∣ N) ∧
    ∀ (st : TimerState) (now : Nat), ¬ st.mode = TimerMode.work →
      ((handleTimerComplete cfg st now).1).mode = TimerMode.work := by
  obtain ⟨n, rfl⟩ : ∃ n, N = n + 1 := ⟨N - 1, by omega⟩
  obtain ⟨-, -, -, -, h5⟩ := afterNthWork_spec cfg tid n
  have harith := mod_pred_iff_dvd_succ cfg.longBreakInterval n hK
  by_cases hc : n % cfg.longBreakInterval = cfg.longBreakInterval - 1
  · rw [if_pos hc] at h5
    refine ⟨?_, ?_, fun st now hm => complete_break_to_work cfg st now hm⟩
    · rw [h5]
      exact iff_of_true rfl (harith.mp hc)
    · rw [h5]
      exact iff_of_false (by simp) (by simp [harith.mp hc])
  · rw [if_neg hc] at h5
    have hnd : ¬ cfg.longBreakInterval ∣ (n + 1) := fun h => hc (harith.mpr h)
    refine ⟨?_, ?_, fun st now hm => complete_break_to_work cfg st now hm⟩
    · rw [h5]
      exact iff_of_false (by simp) hnd
    · rw [h5]
      exact iff_of_true rfl hnd

/-- Witness for C5: with the default interval 4, the 4th work completion
enters the long break and the 3rd a short break. -/
theorem longBreak_cadence_witness :
    (afterNthWork defaultSettings "t1" 4).mode = TimerMode.longBreak ∧
    (afterNthWork defaultSettings "t1" 3).mode = TimerMode.shortBreak := by
  constructor
  · exact ((longBreak_cadence defaultSettings "t1" 4 (by decide)
      (by decide)).1).mpr (by decide)
  · exact ((longBreak_cadence defaultSettings "t1" 3 (by decide)
      (by decide)).2.1).mpr (by decide)

/-! ## C1: filtered drag-and-drop reorder -/

/-- C1: on tasks `[tA, tB, tC]` (slots 0,1,2; `tB` completed) under the
`active` filter, dragging the task at filtered index 0 to filtered index 1
should, per the splice semantics, produce `[tC, tB, tA]`; `handleDragEnd`
instead sorts the merged list by the tasks' stale `order` fields and returns
the original arrangement `[tA, tB, tC]` — the drag is discarded. -/
theorem dragEnd_discards_filtered_reorder :
    handleDragEnd TaskFilter.active [tA, tB, tC] 0 1 = some [tA, tB, tC] ∧
    spliceReorderSpec TaskFilter.active [tA, tB, tC] 0 1 =
      some [{ tC with order := 0 }, tB, { tA with order := 2 }] ∧
    handleDragEnd TaskFilter.active [tA, tB, tC] 0 1 ≠
      spliceReorderSpec TaskFilter.active [tA, tB, tC] 0 1 := by
  refine ⟨by decide, by decide, by decide⟩

/-! ## C3: lazy settings creation is not keyed by the user -/

/-- C3: for user `u1` with no existing settings document, the first
`fetchSettings` adopts the defaults and creates a settings document — but
under the auto-generated id `autoA`, not under the key `u1`; `getDoc` on
`u1` still misses afterwards, so a second fetch does not return the created
record and creates a second document instead. -/
theorem fetchSettings_creates_unkeyed_doc :
    (fetchSettings (some "u1") emptyStore defaultSettings "autoA").2 =
      defaultSettings ∧
    (fetchSettings (some "u1") emptyStore defaultSettings "autoA").1.settingsDocs =
      [{ docId := "autoA", data := defaultSettings, userId := some "u1" }] ∧
    (fetchSettings (some "u1") emptyStore defaultSettings "autoA").1.getSettingsDoc
      "u1" = none ∧
    ((fetchSettings (some "u1")
        (fetchSettings (some "u1") emptyStore defaultSettings "autoA").1
        defaultSettings "autoB").1.settingsDocs.length = 2) := by
  refine ⟨rfl, by decide, by decide, by decide⟩

end FocusFlow
